/-
Verification of the distributed task queue (Python sources under src/).

Shallow embedding notes:
- Machine-level concerns do not arise: Python integers are unbounded, so
  priorities, retry counters and scores are modelled as `Int`/`Nat` directly.
- Timestamps (`datetime.now`) are nondeterministic inputs; every operation
  that reads the clock takes the current time as an explicit parameter.
  Aware UTC datetimes are modelled as `Nat` instants; the stdlib codec
  `isoformat`/`fromisoformat` is modelled by an explicit injective encoding
  into `String` with a matching decoder (the repository code only ever
  passes these values through the codec).
- UUIDs are modelled as their string form (the code only ever converts a
  `UUID` to `str` and back, which is lossless).
- `json.dumps`/`json.loads` (stdlib) form a lossless codec between JSON
  trees and strings; the string layer is therefore modelled as the JSON
  tree itself: `to_json` produces the tree that `json.dumps` would print
  and `from_json` consumes it.
- Methods that raise `ValueError` are modelled as `Except String`
  functions; in the source every guard is checked before any field is
  mutated, so the error branch of the model carries no updated value.
- Redis is modelled as an explicit store:
  `task:{id}` string keys become an association list `tasks`;
  `queue:{q}:pending` sorted sets become association lists member -> score
  (ZADD upserts, BZPOPMIN pops the lowest score, ties broken by member);
  `queue:{q}:processing` / `:completed` / `:failed` sets become string
  lists with SADD/SREM/SMOVE semantics; `queues:paused` and
  `workers:active` are string sets; `worker:{id}` records are an
  association list.  The key `queue:{q}:dlq:failed` is the failed set of
  the queue named `q ++ ":dlq"`, exactly as the worker computes it.
-/
import Mathlib

namespace DTQ

/-- JSON values, the image of `json.dumps`/`json.loads`. -/
inductive Json where
  | null : Json
  | bool (b : Bool) : Json
  | num (n : Int) : Json
  | str (s : String) : Json
  | arr (elements : List Json) : Json
  | obj (fields : List (String × Json)) : Json

/-- `TaskStatus` from src/src/queue/task.py. -/
inductive TaskStatus where
  | pending
  | processing
  | completed
  | failed
deriving DecidableEq, Repr

/-- The `Task` dataclass from src/src/queue/task.py.  `payload` is typed
`dict[str, Any]` and `result` `Optional[dict[str, Any]]` in the source, so
they are JSON objects here (field lists). -/
structure Task where
  id : String
  name : String
  payload : List (String × Json)
  status : TaskStatus
  priority : Int
  created_at : Nat
  started_at : Option Nat
  completed_at : Option Nat
  result : Option (List (String × Json))
  error : Option String
  retries : Int
  max_retries : Int

namespace Task

/-- `Task.create` plus `__post_init__` validation.  The generated
`uuid4()` and `datetime.now(timezone.utc)` are nondeterministic, so the
fresh id and creation instant are explicit parameters. -/
def create (name : String) (payload : List (String × Json)) (priority : Int)
    (max_retries : Int) (id : String) (created_at : Nat) : Except String Task :=
  if ¬ (1 ≤ priority ∧ priority ≤ 10) then
    Except.error ("Priority must be between 1 and 10")
  else if max_retries < 0 then
    Except.error ("max_retries must be non-negative")
  else
    Except.ok
      { id := id, name := name, payload := payload, status := TaskStatus.pending
        priority := priority, created_at := created_at, started_at := none
        completed_at := none, result := none, error := none, retries := 0
        max_retries := max_retries }

/-- `Task.mark_processing`; `now` is the clock reading. -/
def mark_processing (t : Task) (now : Nat) : Except String Task :=
  if t.status ≠ TaskStatus.pending then
    Except.error ("Cannot mark task as processing")
  else
    Except.ok { t with status := TaskStatus.processing, started_at := some now }

/-- `Task.mark_completed`; the `result` argument is optional in the source
(default `None`). -/
def mark_completed (t : Task) (result : Option (List (String × Json)))
    (now : Nat) : Except String Task :=
  if t.status ≠ TaskStatus.processing then
    Except.error ("Cannot mark task as completed")
  else
    Except.ok { t with status := TaskStatus.completed, completed_at := some now
                       result := result }

/-- `Task.mark_failed`. -/
def mark_failed (t : Task) (error : String) (now : Nat) : Except String Task :=
  if t.status ≠ TaskStatus.processing then
    Except.error ("Cannot mark task as failed")
  else
    Except.ok { t with status := TaskStatus.failed, completed_at := some now
                       error := some error }

/-- `Task.can_retry`. -/
def can_retry (t : Task) : Bool :=
  t.retries < t.max_retries

/-- `Task.prepare_retry`. -/
def prepare_retry (t : Task) : Except String Task :=
  if ¬ t.can_retry then
    Except.error ("Cannot retry task: max retries exceeded")
  else
    Except.ok { t with retries := t.retries + 1, status := TaskStatus.pending
                       started_at := none, completed_at := none, error := none }

end Task

/-- Little-endian base-10 digits, driven by a fuel argument so that the
recursion is structural (the fuel is always at least the number). -/
def natDigitsLEAux : Nat → Nat → List Nat
  | 0, _ => []
  | fuel + 1, n => if n = 0 then [] else (n % 10) :: natDigitsLEAux fuel (n / 10)

/-- Little-endian base-10 digits of a natural number (empty for 0). -/
def natDigitsLE (n : Nat) : List Nat :=
  natDigitsLEAux n n

/-- Value of a little-endian digit list. -/
def digitsToNat : List Nat → Nat
  | [] => 0
  | d :: ds => d + 10 * digitsToNat ds

/-- The ASCII character for one decimal digit. -/
def digitChar (d : Nat) : Char :=
  Char.ofNat (48 + d)

/-- Decode one ASCII decimal digit character. -/
def charDigit (c : Char) : Option Nat :=
  if 48 ≤ c.toNat ∧ c.toNat ≤ 57 then some (c.toNat - 48) else none

/-- Decode a list of decimal digit characters. -/
def digitsOfChars : List Char → Option (List Nat)
  | [] => some []
  | c :: cs =>
    match charDigit c with
    | none => none
    | some d =>
      match digitsOfChars cs with
      | none => none
      | some ds => some (d :: ds)

/-- Modelled from the stdlib: `datetime.isoformat` is an injective, never
empty rendering of an aware UTC datetime; the instant is represented here
by a marker character followed by its decimal digits. -/
def isoformat (n : Nat) : String :=
  String.mk ('T' :: (natDigitsLE n).map digitChar)

/-- Modelled from the stdlib: `datetime.fromisoformat`, the inverse of
`isoformat`; `none` models the `ValueError` raised on malformed input. -/
def fromisoformat (s : String) : Option Nat :=
  match s.data with
  | 'T' :: cs =>
    match digitsOfChars cs with
    | none => none
    | some ds => some (digitsToNat ds)
  | _ => none

/-- Lookup in an association list, the first binding winning (models a
Python dict whose keys are unique, and Redis key lookup). -/
def alGet {α : Type} : List (String × α) → String → Option α
  | [], _ => none
  | (k, v) :: rest, key => if k = key then some v else alGet rest key

/-- Insert or overwrite a binding (models dict item / Redis SET / ZADD). -/
def alSet {α : Type} : List (String × α) → String → α → List (String × α)
  | [], key, v => [(key, v)]
  | (k, w) :: rest, key, v =>
    if k = key then (key, v) :: rest else (k, w) :: alSet rest key v

/-- `TaskStatus.value`, the wire string of a status. -/
def statusValue : TaskStatus → String
  | TaskStatus.pending => "pending"
  | TaskStatus.processing => "processing"
  | TaskStatus.completed => "completed"
  | TaskStatus.failed => "failed"

/-- `TaskStatus(value)`: parse a wire string back to a status, raising
`ValueError` on an unknown value. -/
def parseStatus (s : String) : Except String TaskStatus :=
  if s = "pending" then Except.ok TaskStatus.pending
  else if s = "processing" then Except.ok TaskStatus.processing
  else if s = "completed" then Except.ok TaskStatus.completed
  else if s = "failed" then Except.ok TaskStatus.failed
  else Except.error ("not a valid TaskStatus")

/-- Python truthiness of a JSON value (`if data.get(...)`). -/
def truthy : Json → Bool
  | Json.null => false
  | Json.bool b => b
  | Json.num n => if n = 0 then false else true
  | Json.str s => if s = "" then false else true
  | Json.arr [] => false
  | Json.arr (_ :: _) => true
  | Json.obj [] => false
  | Json.obj (_ :: _) => true

namespace Task

/-- `Task.to_dict`: the dictionary `json.dumps` serializes. -/
def to_dict (t : Task) : List (String × Json) :=
  [ ("id", Json.str t.id)
  , ("name", Json.str t.name)
  , ("payload", Json.obj t.payload)
  , ("status", Json.str (statusValue t.status))
  , ("priority", Json.num t.priority)
  , ("created_at", Json.str (isoformat t.created_at))
  , ("started_at", match t.started_at with
      | none => Json.null
      | some n => Json.str (isoformat n))
  , ("completed_at", match t.completed_at with
      | none => Json.null
      | some n => Json.str (isoformat n))
  , ("result", match t.result with
      | none => Json.null
      | some fs => Json.obj fs)
  , ("error", match t.error with
      | none => Json.null
      | some s => Json.str s)
  , ("retries", Json.num t.retries)
  , ("max_retries", Json.num t.max_retries) ]

/-- `Task.to_json`: `json.dumps(self.to_dict())`; the lossless string layer
of the stdlib is left implicit, so the result is the JSON tree itself. -/
def to_json (t : Task) : Json :=
  Json.obj t.to_dict

end Task

/-- `data[key]`: a missing key raises `KeyError`. -/
def reqField (d : List (String × Json)) (key : String) : Except String Json :=
  match alGet d key with
  | some j => Except.ok j
  | none => Except.error ("KeyError")

/-- A value that must be a string (`UUID(...)` / `fromisoformat` /
dataclass fields annotated `str` reject anything else). -/
def asStr : Json → Except String String
  | Json.str s => Except.ok s
  | _ => Except.error ("expected a string")

/-- A value that must be a number (fields annotated `int`; comparing
anything else in `__post_init__` raises `TypeError`). -/
def asNum : Json → Except String Int
  | Json.num n => Except.ok n
  | _ => Except.error ("expected a number")

/-- A value that must be a JSON object (fields annotated `dict`). -/
def asObj : Json → Except String (List (String × Json))
  | Json.obj fs => Except.ok fs
  | _ => Except.error ("expected an object")

/-- `datetime.fromisoformat(data[k]) if data.get(k) else None`: truthiness
gate, then the codec (which raises on anything but a wellformed string). -/
def parseOptDate (o : Option Json) : Except String (Option Nat) :=
  let j := o.getD Json.null
  if truthy j then
    match j with
    | Json.str s =>
      match fromisoformat s with
      | some n => Except.ok (some n)
      | none => Except.error ("invalid isoformat string")
    | _ => Except.error ("fromisoformat: argument must be str")
  else
    Except.ok none

/-- `data.get("result")`: `None` and JSON `null` both read back as `none`;
the field is annotated `Optional[dict]`, so an object is the only other
wellformed value. -/
def parseOptObj (o : Option Json) : Except String (Option (List (String × Json))) :=
  match o.getD Json.null with
  | Json.null => Except.ok none
  | Json.obj fs => Except.ok (some fs)
  | _ => Except.error ("expected an object or null")

/-- `data.get("error")`: as `parseOptObj` but for `Optional[str]`. -/
def parseOptStr (o : Option Json) : Except String (Option String) :=
  match o.getD Json.null with
  | Json.null => Except.ok none
  | Json.str s => Except.ok (some s)
  | _ => Except.error ("expected a string or null")

namespace Task

/-- `Task.from_dict`, including the `__post_init__` validation that runs
when the dataclass is constructed.  `data.get("retries", 0)` and
`data.get("max_retries", 3)` supply defaults for missing keys. -/
def from_dict (d : List (String × Json)) : Except String Task := do
  let id ← asStr (← reqField d ("id"))
  let name ← asStr (← reqField d ("name"))
  let payload ← asObj (← reqField d ("payload"))
  let status ← parseStatus (← asStr (← reqField d ("status")))
  let priority ← asNum (← reqField d ("priority"))
  let createdStr ← asStr (← reqField d ("created_at"))
  let created_at ←
    match fromisoformat createdStr with
    | some n => Except.ok n
    | none => Except.error ("invalid isoformat string")
  let started_at ← parseOptDate (alGet d ("started_at"))
  let completed_at ← parseOptDate (alGet d ("completed_at"))
  let result ← parseOptObj (alGet d ("result"))
  let error ← parseOptStr (alGet d ("error"))
  let retries ←
    match alGet d ("retries") with
    | none => Except.ok (0 : Int)
    | some j => asNum j
  let max_retries ←
    match alGet d ("max_retries") with
    | none => Except.ok (3 : Int)
    | some j => asNum j
  if 1 ≤ priority ∧ priority ≤ 10 then
    if max_retries < 0 then
      Except.error ("max_retries must be non-negative")
    else
      Except.ok
        { id := id, name := name, payload := payload, status := status
          priority := priority, created_at := created_at
          started_at := started_at, completed_at := completed_at
          result := result, error := error, retries := retries
          max_retries := max_retries }
  else
    Except.error ("Priority must be between 1 and 10")

/-- `Task.from_json`: `json.loads` then `from_dict`.  `json.loads` of a
`json.dumps` output returns the same tree; a non-object tree would make
the subscripting in `from_dict` raise. -/
def from_json (j : Json) : Except String Task :=
  match j with
  | Json.obj d => from_dict d
  | _ => Except.error ("expected a JSON object")

end Task

/-- Redis SISMEMBER on a set of strings. -/
def memb (x : String) : List String → Bool
  | [] => false
  | y :: ys => if y = x then true else memb x ys

/-- Redis SADD (sets already-present members are left alone). -/
def sadd (l : List String) (x : String) : List String :=
  if memb x l then l else l ++ [x]

/-- Redis SREM. -/
def srem : List String → String → List String
  | [], _ => []
  | y :: ys, x => if y = x then srem ys x else y :: srem ys x

/-- Redis SMOVE: moves `x` from `src` to `dst` when present, otherwise a
no-op on both sets. -/
def smove (src dst : List String) (x : String) : List String × List String :=
  if memb x src then (srem src x, sadd dst x) else (src, dst)

/-- Redis ZADD of one member (upsert of the member's score). -/
def zUpsert (z : List (String × Int)) (member : String) (score : Int) :
    List (String × Int) :=
  alSet z member score

/-- Redis ZSCORE. -/
def zscore (z : List (String × Int)) (member : String) : Option Int :=
  alGet z member

/-- The entry a ZPOPMIN would pop: lowest score first, ties broken by the
lexicographically smallest member. -/
def zminEntry : List (String × Int) → Option (String × Int)
  | [] => none
  | e :: rest =>
    match zminEntry rest with
    | none => some e
    | some m => if e.2 < m.2 ∨ (e.2 = m.2 ∧ e.1 < m.1) then some e else some m

/-- Remove a member from a sorted set. -/
def zremMember : List (String × Int) → String → List (String × Int)
  | [], _ => []
  | e :: rest, x => if e.1 = x then zremMember rest x else e :: zremMember rest x

/-- Redis BZPOPMIN restricted to the popped member and the remaining set
(`none` models the timeout on an empty set). -/
def zpopmin (z : List (String × Int)) : Option ((String × Int) × List (String × Int)) :=
  match zminEntry z with
  | none => none
  | some e => some (e, zremMember z e.1)

/-- Worker state as stored under `worker:{id}`; only the fields the
operations under verification consult are modelled (`status`,
`current_task_name`, the counters and `queues` are never read by
`get_stale_workers` or `recover_orphaned_tasks`). -/
structure WorkerStateM where
  worker_id : String
  current_task : Option String
  last_heartbeat : Int
deriving DecidableEq, Repr

/-- The Redis keyspace of the system, one field per key family (see the
key naming convention in src/src/queue/broker.py). -/
structure Store where
  tasks : List (String × Task)
  pending : List (String × List (String × Int))
  processing : List (String × List String)
  completed : List (String × List String)
  failed : List (String × List String)
  paused : List String
  workersActive : List String
  workerStates : List (String × WorkerStateM)

namespace Store

/-- A store with no keys. -/
def empty : Store :=
  { tasks := [], pending := [], processing := [], completed := [], failed := []
    paused := [], workersActive := [], workerStates := [] }

/-- Contents of `queue:{q}:pending` (an absent key reads as empty). -/
def pendingOf (st : Store) (q : String) : List (String × Int) :=
  (alGet st.pending q).getD []

/-- Contents of `queue:{q}:processing`. -/
def processingOf (st : Store) (q : String) : List String :=
  (alGet st.processing q).getD []

/-- Contents of `queue:{q}:completed`. -/
def completedOf (st : Store) (q : String) : List String :=
  (alGet st.completed q).getD []

/-- Contents of `queue:{q}:failed`. -/
def failedOf (st : Store) (q : String) : List String :=
  (alGet st.failed q).getD []

def setPending (st : Store) (q : String) (z : List (String × Int)) : Store :=
  { st with pending := alSet st.pending q z }

def setProcessing (st : Store) (q : String) (s : List String) : Store :=
  { st with processing := alSet st.processing q s }

def setCompleted (st : Store) (q : String) (s : List String) : Store :=
  { st with completed := alSet st.completed q s }

def setFailed (st : Store) (q : String) (s : List String) : Store :=
  { st with failed := alSet st.failed q s }

def setTask (st : Store) (key : String) (t : Task) : Store :=
  { st with tasks := alSet st.tasks key t }

end Store

namespace RedisBroker

/-- `RedisBroker.enqueue` (src/src/queue/broker.py:184-245): validate the
effective priority, optionally overwrite `task.priority`, store the task
record under `task:{id}`, and ZADD the id with score `-priority`. -/
def enqueue (st : Store) (task : Task) (queue_name : Option String)
    (priority : Option Int) (default_queue : String) :
    Except String (Store × Task) :=
  let q := queue_name.getD default_queue
  let task_priority := priority.getD task.priority
  if ¬ (1 ≤ task_priority ∧ task_priority ≤ 10) then
    Except.error ("Priority must be between 1 and 10")
  else
    let task :=
      match priority with
      | some p => { task with priority := p }
      | none => task
    let st := st.setTask task.id task
    let st := st.setPending q (zUpsert (st.pendingOf q) task.id (-task_priority))
    Except.ok (st, task)

/-- `RedisBroker.dequeue` (src/src/queue/broker.py:247-326): BZPOPMIN the
pending set, load the record, `mark_processing` it (an illegal stored
status would raise out of `dequeue`, after the pop already happened),
write it back and SADD the id to the processing set.  The store is
returned on every exit path because the pop mutates it before any raise. -/
def dequeue (st : Store) (queue_name : String) (now : Nat) :
    Store × Except String (Option Task) :=
  match zpopmin (st.pendingOf queue_name) with
  | none => (st, Except.ok none)
  | some (e, rest) =>
    let st := st.setPending queue_name rest
    match alGet st.tasks e.1 with
    | none => (st, Except.ok none)
    | some task =>
      match Task.mark_processing task now with
      | Except.error msg => (st, Except.error msg)
      | Except.ok task =>
        let st := st.setTask e.1 task
        let st := st.setProcessing queue_name (sadd (st.processingOf queue_name) task.id)
        (st, Except.ok (some task))

/-- `RedisBroker.update_task` (src/src/queue/broker.py:355-427): rewrite
the record, then move the id between status sets according to the task's
status (SMOVE to completed/failed, SREM plus re-ZADD for pending, nothing
for processing). -/
def update_task (st : Store) (task : Task) (queue_name : Option String)
    (default_queue : String) : Store :=
  let q := queue_name.getD default_queue
  let st := st.setTask task.id task
  match task.status with
  | TaskStatus.completed =>
    let moved := smove (st.processingOf q) (st.completedOf q) task.id
    (st.setProcessing q moved.1).setCompleted q moved.2
  | TaskStatus.failed =>
    let moved := smove (st.processingOf q) (st.failedOf q) task.id
    (st.setProcessing q moved.1).setFailed q moved.2
  | TaskStatus.pending =>
    let st := st.setProcessing q (srem (st.processingOf q) task.id)
    st.setPending q (zUpsert (st.pendingOf q) task.id (-task.priority))
  | TaskStatus.processing => st

end RedisBroker

/-- `pause_queue` (src/src/api/routers/queues.py:206-233): reject when
already paused (HTTP 400), otherwise SADD the name to `queues:paused`. -/
def pause_queue (st : Store) (queue_name : String) : Except String Store :=
  if memb queue_name st.paused then
    Except.error ("already paused")
  else
    Except.ok { st with paused := sadd st.paused queue_name }

/-- The worker configuration consulted by the operations under
verification: the polling list and `settings.default_queue`. -/
structure WorkerCfg where
  queues : List String
  default_queue : String

namespace Worker

/-- `Worker._poll_queues` (src/src/worker/worker.py:394-420): try each
configured queue in order with a short dequeue timeout; the first task
wins; a raising dequeue is caught, logged and the loop continues.  Note
the loop never consults `queues:paused`. -/
def poll_queues (st : Store) (queues : List String) (now : Nat) :
    Store × Option Task :=
  match queues with
  | [] => (st, none)
  | q :: rest =>
    match RedisBroker.dequeue st q now with
    | (st2, Except.ok (some t)) => (st2, some t)
    | (st2, Except.ok none) => poll_queues st2 rest now
    | (st2, Except.error _) => poll_queues st2 rest now

/-- `Worker._move_to_dlq` (src/src/worker/worker.py:561-587): the DLQ of
the first configured queue (falling back to the default queue) is the
failed set of the queue named `original ++ ":dlq"`; rewrite the record and
SADD the id there. -/
def move_to_dlq (cfg : WorkerCfg) (st : Store) (task : Task) : Store :=
  let original_queue := cfg.queues.headD cfg.default_queue
  let dlq_name := original_queue ++ (":dlq")
  let st := st.setTask task.id task
  st.setFailed dlq_name (sadd (st.failedOf dlq_name) task.id)

/-- `Worker._handle_task_failure` (src/src/worker/worker.py:498-544): if
the task can retry, `prepare_retry` then `update_task` (both called with
no queue name, so `update_task` acts on the default queue); otherwise
`update_task` and then `_move_to_dlq`.  The `tasks_failed` counter update
is elided (no claim consults it).  The inner error branch is unreachable:
`prepare_retry`'s guard is exactly `can_retry`. -/
def handle_task_failure (cfg : WorkerCfg) (st : Store) (task : Task) : Store :=
  if task.can_retry then
    match task.prepare_retry with
    | Except.ok task2 => RedisBroker.update_task st task2 none cfg.default_queue
    | Except.error _ => st
  else
    let st := RedisBroker.update_task st task none cfg.default_queue
    move_to_dlq cfg st task

/-- `Worker.get_all_workers` (src/src/worker/worker.py:688-714): read the
`workers:active` set and keep the ids whose `worker:{id}` record exists. -/
def get_all_workers (st : Store) : List WorkerStateM :=
  st.workersActive.filterMap (fun wid => alGet st.workerStates wid)

end Worker

/-- `get_stale_workers` (src/src/worker/utils.py:48-79): the workers whose
last heartbeat is at least `timeout_seconds` old. -/
def get_stale_workers (st : Store) (now timeout_seconds : Int) :
    List WorkerStateM :=
  (Worker.get_all_workers st).filter
    (fun w => decide (timeout_seconds ≤ now - w.last_heartbeat))

/-- One iteration of the recovery loop in `recover_orphaned_tasks`
(src/src/worker/utils.py:191-231): if the stale worker holds a task whose
stored status is processing, rewrite it as pending with `started_at`
cleared, SREM it from the queue's processing set and ZADD it back to
pending with score `-priority`. -/
def recoverStep (st : Store) (queue_name : String) (w : WorkerStateM) :
    Store × Nat :=
  match w.current_task with
  | none => (st, 0)
  | some tid =>
    match alGet st.tasks tid with
    | none => (st, 0)
    | some task =>
      if task.status = TaskStatus.processing then
        let task := { task with status := TaskStatus.pending, started_at := none }
        let st := st.setTask task.id task
        let st := st.setProcessing queue_name (srem (st.processingOf queue_name) task.id)
        let st := st.setPending queue_name
          (zUpsert (st.pendingOf queue_name) task.id (-task.priority))
        (st, 1)
      else
        (st, 0)

/-- The `for worker in stale_workers` loop body applied in order. -/
def recoverLoop (st : Store) (queue_name : String) :
    List WorkerStateM → Store × Nat
  | [] => (st, 0)
  | w :: ws =>
    let r := recoverStep st queue_name w
    let r2 := recoverLoop r.1 queue_name ws
    (r2.1, r.2 + r2.2)

/-- `recover_orphaned_tasks` (src/src/worker/utils.py:164-233). -/
def recover_orphaned_tasks (st : Store) (queue_name : String)
    (now timeout_seconds : Int) : Store × Nat :=
  recoverLoop st queue_name (get_stale_workers st now timeout_seconds)

/-- One successful state transition of a task through its four transition
methods (the clock reading, result or error message being arbitrary). -/
inductive TaskStep : Task → Task → Prop where
  | processing (t u : Task) (now : Nat) :
      Task.mark_processing t now = Except.ok u → TaskStep t u
  | completed (t u : Task) (r : Option (List (String × Json))) (now : Nat) :
      Task.mark_completed t r now = Except.ok u → TaskStep t u
  | failed (t u : Task) (e : String) (now : Nat) :
      Task.mark_failed t e now = Except.ok u → TaskStep t u
  | retry (t u : Task) :
      Task.prepare_retry t = Except.ok u → TaskStep t u

/-- Task states reachable from `Task.create` through the transition
methods. -/
inductive Reachable : Task → Prop where
  | create (name : String) (payload : List (String × Json)) (priority max_retries : Int)
      (id : String) (created_at : Nat) (t : Task) :
      Task.create name payload priority max_retries id created_at = Except.ok t →
      Reachable t
  | step (t u : Task) : Reachable t → TaskStep t u → Reachable u

/-- A concrete freshly created task: `Task.create("job", {}, 5, 3)` with
id "id0" at instant 0. -/
def exT0 : Task :=
  { id := "id0", name := "job", payload := [], status := TaskStatus.pending
    priority := 5, created_at := 0, started_at := none, completed_at := none
    result := none, error := none, retries := 0, max_retries := 3 }

/-- `exT0` after `mark_processing` at instant 1. -/
def exT1 : Task :=
  { exT0 with status := TaskStatus.processing, started_at := some 1 }

/-- `exT1` after `mark_completed(None)` at instant 2. -/
def exT2 : Task :=
  { exT1 with status := TaskStatus.completed, completed_at := some 2 }

/-- `exT1` after `mark_completed({"rows": 1})` at instant 2. -/
def exC2 : Task :=
  { exT1 with status := TaskStatus.completed, completed_at := some 2
              result := some [("rows", Json.num 1)] }

/-- `exC2` after `prepare_retry` (guard passes: 0 < 3); the result field
survives. -/
def exC3 : Task :=
  { exC2 with status := TaskStatus.pending, started_at := none
              completed_at := none, error := none, retries := 1 }

/-- `exC3` after a second `mark_processing` at instant 3. -/
def exC4 : Task :=
  { exC3 with status := TaskStatus.processing, started_at := some 3 }

/-- `exC4` after `mark_failed("boom")` at instant 4: status failed with
both `result` and `error` set. -/
def exC5 : Task :=
  { exC4 with status := TaskStatus.failed, completed_at := some 4
              error := some ("boom") }

/-- `exT2` after `prepare_retry` (status goes completed -> pending). -/
def exT3 : Task :=
  { exT2 with status := TaskStatus.pending, started_at := none
              completed_at := none, retries := 1 }

/-- A pending task of priority 7 with id "a" (for the ordering scenario). -/
def exA : Task :=
  { exT0 with id := "a", priority := 7 }

/-- A pending task of priority 3 with id "b". -/
def exB : Task :=
  { exT0 with id := "b", priority := 3 }

/-- A pending task with id "p1" used for the paused-queue scenario. -/
def pTask : Task :=
  { exT0 with id := "p1" }

/-- The store after enqueueing `pTask` on queue "q1". -/
def c5st1 : Store :=
  { Store.empty with tasks := [("p1", pTask)], pending := [("q1", [("p1", -5)])] }

/-- `c5st1` after `pause_queue("q1")`. -/
def c5st2 : Store :=
  { c5st1 with paused := ["q1"] }

/-- `pTask` as returned by the dequeue inside the poll at instant 7. -/
def pTaskProcessing : Task :=
  { pTask with status := TaskStatus.processing, started_at := some 7 }

/-- A worker polling only the queue "high" while the settings default
queue is "default". -/
def cfg6 : WorkerCfg :=
  { queues := ["high"], default_queue := "default" }

/-- A worker whose only queue is the default queue. -/
def cfgD : WorkerCfg :=
  { queues := ["default"], default_queue := "default" }

/-- A task that has exhausted its retries and was just marked failed;
its id sits in `queue:high:processing`. -/
def fTask : Task :=
  { exT0 with id := "f1", status := TaskStatus.failed, started_at := some 1
              completed_at := some 2, error := some ("boom"), max_retries := 0 }

/-- The store in which the worker `cfg6` handles the failure of `fTask`. -/
def st6 : Store :=
  { Store.empty with tasks := [("f1", fTask)], processing := [("high", ["f1"])] }

/-- As `st6` but with the id in the default queue's processing set (the
scenario of the amended claim, where polling list and default agree). -/
def st6d : Store :=
  { Store.empty with tasks := [("f1", fTask)], processing := [("default", ["f1"])] }

/-- A task with id "t1" currently marked processing (orphan scenario). -/
def oTask : Task :=
  { exT0 with id := "t1", status := TaskStatus.processing, started_at := some 1 }

/-- A worker that went stale while holding `oTask`. -/
def staleW : WorkerStateM :=
  { worker_id := "w1", current_task := some ("t1"), last_heartbeat := 0 }

/-- The store for the recovery scenario: one stale worker, its task in
`queue:default:processing`. -/
def stOrphan : Store :=
  { Store.empty with
      tasks := [("t1", oTask)]
      processing := [("default", ["t1"])]
      workersActive := ["w1"]
      workerStates := [("w1", staleW)] }

/-- The record a successful recovery writes for `oTask`. -/
def oTaskRecovered : Task :=
  { oTask with status := TaskStatus.pending, started_at := none }

/-- The id of the task a dequeue (or poll) result carries, if any. -/
def dequeuedId (p : Store × Except String (Option Task)) : Option String :=
  match p.2 with
  | Except.ok (some t) => some t.id
  | _ => none

/-- The post-state a successful recovery of member `m` on queue `q`
leaves behind: the record under `task:{m}` is `t` (pending, `started_at`
cleared), the id sits in the pending sorted set with score `-priority`,
and it is gone from the processing set. -/
def recoveredAt (st : Store) (q m : String) (t : Task) : Prop :=
  alGet st.tasks m = some t ∧ t.status = TaskStatus.pending ∧
  t.started_at = none ∧ zscore (st.pendingOf q) m = some (-t.priority) ∧
  memb m (st.processingOf q) = false

theorem digitsToNat_natDigitsLEAux (fuel : Nat) :
    ∀ n, n ≤ fuel → digitsToNat (natDigitsLEAux fuel n) = n := by
  induction fuel with
  | zero => intro n h; interval_cases n; rfl
  | succ fuel ih =>
    intro n h
    rw [natDigitsLEAux]
    split
    · simp [digitsToNat]; omega
    · rename_i h0
      have hdiv : n / 10 ≤ fuel := by omega
      simp [digitsToNat, ih (n / 10) hdiv]
      omega

theorem digitsToNat_natDigitsLE (n : Nat) : digitsToNat (natDigitsLE n) = n :=
  digitsToNat_natDigitsLEAux n n (Nat.le_refl n)

theorem charDigit_digitChar (d : Nat) (h : d < 10) :
    charDigit (digitChar d) = some d := by
  interval_cases d <;> rfl

theorem natDigitsLEAux_lt_ten (fuel : Nat) :
    ∀ n d, d ∈ natDigitsLEAux fuel n → d < 10 := by
  induction fuel with
  | zero => intro n d hd; cases hd
  | succ fuel ih =>
    intro n d hd
    rw [natDigitsLEAux] at hd
    split at hd
    · cases hd
    · rcases List.mem_cons.mp hd with h1 | h1
      · omega
      · exact ih (n / 10) d h1

theorem natDigitsLE_lt_ten (n : Nat) : ∀ d ∈ natDigitsLE n, d < 10 :=
  fun d hd => natDigitsLEAux_lt_ten n n d hd

theorem digitsOfChars_map_digitChar (l : List Nat) (h : ∀ d ∈ l, d < 10) :
    digitsOfChars (l.map digitChar) = some l := by
  induction l with
  | nil => rfl
  | cons d ds ih =>
    simp only [List.map_cons, digitsOfChars,
      charDigit_digitChar d (h d (List.mem_cons_self d ds)),
      ih (fun x hx => h x (List.mem_cons_of_mem d hx))]

/-- The datetime codec round-trips. -/
theorem fromisoformat_isoformat (n : Nat) : fromisoformat (isoformat n) = some n := by
  simp only [isoformat, fromisoformat,
    digitsOfChars_map_digitChar (natDigitsLE n) (natDigitsLE_lt_ten n),
    digitsToNat_natDigitsLE]

theorem isoformat_ne_empty (n : Nat) : isoformat n ≠ "" := by
  intro h
  have h2 : ('T' :: (natDigitsLE n).map digitChar) = ([] : List Char) :=
    congrArg String.data h
  exact List.noConfusion h2

/-- Reachable tasks keep the bounds `__post_init__` established: priority
in `[1, 10]` and a non-negative retry budget (no transition touches
`priority` or `max_retries`). -/
theorem reachable_priority_bounds (t : Task) (h : Reachable t) :
    1 ≤ t.priority ∧ t.priority ≤ 10 ∧ 0 ≤ t.max_retries := by
  induction h with
  | create name payload priority max_retries id created_at t hc =>
    unfold Task.create at hc
    split at hc
    · cases hc
    · split at hc
      · cases hc
      · rename_i h1 h2
        cases hc
        refine ⟨?_, ?_, ?_⟩ <;> simp_all
  | step t u _ hstep ih =>
    cases hstep with
    | processing now h =>
      unfold Task.mark_processing at h
      split at h
      · cases h
      · cases h; exact ih
    | completed r now h =>
      unfold Task.mark_completed at h
      split at h
      · cases h
      · cases h; exact ih
    | failed e now h =>
      unfold Task.mark_failed at h
      split at h
      · cases h
      · cases h; exact ih
    | retry h =>
      unfold Task.prepare_retry at h
      split at h
      · cases h
      · cases h; exact ih

theorem alGet_alSet_self {α : Type} (l : List (String × α)) (k : String) (v : α) :
    alGet (alSet l k v) k = some v := by
  induction l with
  | nil => simp [alSet, alGet]
  | cons p rest ih =>
    obtain ⟨k1, v1⟩ := p
    by_cases h : k1 = k
    · subst h; simp [alSet, alGet]
    · simp [alSet, alGet, h, ih]

theorem alGet_alSet_ne {α : Type} (l : List (String × α)) (k k2 : String) (v : α)
    (h : k ≠ k2) : alGet (alSet l k v) k2 = alGet l k2 := by
  induction l with
  | nil => simp [alSet, alGet, h]
  | cons p rest ih =>
    obtain ⟨k1, v1⟩ := p
    by_cases h1 : k1 = k
    · subst h1; simp [alSet, alGet, h]
    · simp [alSet, alGet, h1, ih]

theorem memb_append (x : String) (l1 l2 : List String) :
    memb x (l1 ++ l2) = (memb x l1 || memb x l2) := by
  induction l1 with
  | nil => simp [memb]
  | cons y ys ih =>
    simp only [List.cons_append, memb]
    split
    · rfl
    · exact ih

theorem memb_singleton (x y : String) : memb x [y] = (if y = x then true else false) := by
  simp [memb]

theorem memb_sadd_self (l : List String) (x : String) : memb x (sadd l x) = true := by
  unfold sadd
  split
  · assumption
  · simp [memb_append, memb_singleton]

theorem memb_sadd_ne (l : List String) (x y : String) (h : x ≠ y) :
    memb x (sadd l y) = memb x l := by
  unfold sadd
  split
  · rfl
  · rw [memb_append, memb_singleton, if_neg (fun h2 => h h2.symm), Bool.or_false]

theorem memb_srem_self (l : List String) (x : String) : memb x (srem l x) = false := by
  induction l with
  | nil => rfl
  | cons y ys ih =>
    rw [srem]
    split
    · exact ih
    · rename_i h
      rw [memb, if_neg h]
      exact ih

theorem memb_srem_ne (l : List String) (x y : String) (h : x ≠ y) :
    memb x (srem l y) = memb x l := by
  induction l with
  | nil => rfl
  | cons z zs ih =>
    rw [srem]
    split
    · rename_i hz
      subst hz
      calc memb x (srem zs z) = memb x zs := ih
        _ = memb x (z :: zs) := by rw [memb, if_neg (fun h2 => h h2.symm)]
    · simp only [memb]
      split
      · rfl
      · exact ih

/-- Claim C3, counterexample: a concrete run of the transition methods
takes a task from `completed` straight back to `pending`, because
`prepare_retry` guards only on the retry budget and not on the source
status.  Every step below is the evaluation of the embedded method. -/
theorem completed_back_to_pending_trace :
    Task.create ("job") [] 5 3 ("id0") 0 = Except.ok exT0 ∧
    Task.mark_processing exT0 1 = Except.ok exT1 ∧
    Task.mark_completed exT1 none 2 = Except.ok exT2 ∧
    exT2.status = TaskStatus.completed ∧
    Task.prepare_retry exT2 = Except.ok exT3 ∧
    exT3.status = TaskStatus.pending :=
  ⟨rfl, rfl, rfl, rfl, rfl, rfl⟩

/-- Claim C3, amended: a successful transition is one of
`pending → processing` (mark_processing), `processing → completed`
(mark_completed), `processing → failed` (mark_failed), or
`s → pending` via `prepare_retry` for any source status `s` — including
`completed` — provided `retries < max_retries`. -/
theorem task_step_transitions (t u : Task) (h : TaskStep t u) :
    (t.status = TaskStatus.pending ∧ u.status = TaskStatus.processing) ∨
    (t.status = TaskStatus.processing ∧
      (u.status = TaskStatus.completed ∨ u.status = TaskStatus.failed)) ∨
    (t.retries < t.max_retries ∧ u.status = TaskStatus.pending) := by
  cases h with
  | processing now h =>
    unfold Task.mark_processing at h
    split at h
    · cases h
    · cases h; left; simp_all
  | completed r now h =>
    unfold Task.mark_completed at h
    split at h
    · cases h
    · cases h; right; left; simp_all
  | failed e now h =>
    unfold Task.mark_failed at h
    split at h
    · cases h
    · cases h; right; left; simp_all
  | retry h =>
    unfold Task.prepare_retry Task.can_retry at h
    split at h
    · cases h
    · rename_i hg
      cases h
      right; right
      constructor
      · simpa using hg
      · rfl

/-- Witness for C3's amended theorem: the `completed → pending` retry
step of the counterexample trace is covered by the third disjunct. -/
theorem task_step_transitions_witness :
    (exT2.status = TaskStatus.pending ∧ exT3.status = TaskStatus.processing) ∨
    (exT2.status = TaskStatus.processing ∧
      (exT3.status = TaskStatus.completed ∨ exT3.status = TaskStatus.failed)) ∨
    (exT2.retries < exT2.max_retries ∧ exT3.status = TaskStatus.pending) :=
  task_step_transitions exT2 exT3 (TaskStep.retry exT2 exT3 rfl)

/-- `exC5` is reachable: create, process, complete with a result, retry
(the result survives), process again, fail. -/
theorem reachable_exC5 : Reachable exC5 :=
  Reachable.step exC4 exC5
    (Reachable.step exC3 exC4
      (Reachable.step exC2 exC3
        (Reachable.step exT1 exC2
          (Reachable.step exT0 exT1
            (Reachable.create ("job") [] 5 3 ("id0") 0 exT0 rfl)
            (TaskStep.processing exT0 exT1 1 rfl))
          (TaskStep.completed exT1 exC2 (some [("rows", Json.num 1)]) 2 rfl))
        (TaskStep.retry exC2 exC3 rfl))
      (TaskStep.processing exC3 exC4 3 rfl))
    (TaskStep.failed exC4 exC5 ("boom") 4 rfl)

/-- Claim C4, counterexample: two reachable states refute the claimed
invariant.  `mark_completed(None)` (exactly what a handler returning
`None` would produce) yields a completed task with neither `result` nor
`error` set; and because `prepare_retry` does not clear `result`, a
retried-then-failed task ends with `result` and `error` both set. -/
theorem result_error_invariant_fails :
    Task.create ("job") [] 5 3 ("id0") 0 = Except.ok exT0 ∧
    Task.mark_processing exT0 1 = Except.ok exT1 ∧
    Task.mark_completed exT1 none 2 = Except.ok exT2 ∧
    (exT2.status = TaskStatus.completed ∧ exT2.result = none ∧ exT2.error = none) ∧
    Task.mark_completed exT1 (some [("rows", Json.num 1)]) 2 = Except.ok exC2 ∧
    Task.prepare_retry exC2 = Except.ok exC3 ∧
    Task.mark_processing exC3 3 = Except.ok exC4 ∧
    Task.mark_failed exC4 ("boom") 4 = Except.ok exC5 ∧
    (exC5.status = TaskStatus.failed ∧
      exC5.result = some [("rows", Json.num 1)] ∧ exC5.error = some ("boom")) :=
  ⟨rfl, rfl, rfl, ⟨rfl, rfl, rfl⟩, rfl, rfl, rfl, rfl, ⟨rfl, rfl, rfl⟩⟩

/-- Claim C4, amended: on every reachable task the `error` half of the
claim holds — `error` is set iff the status is `failed`.  The `result`
half does not: `result` may be `none` on a completed task (the argument
of `mark_completed` is optional) and, since `prepare_retry` keeps
`result`, a set `result` can coexist with any later status, including
`failed` together with `error`. -/
theorem error_iff_failed (t : Task) (h : Reachable t) :
    t.error ≠ none ↔ t.status = TaskStatus.failed := by
  induction h with
  | create name payload priority max_retries id created_at t hc =>
    unfold Task.create at hc
    split at hc
    · cases hc
    · split at hc
      · cases hc
      · cases hc; simp
  | step t u _ hstep ih =>
    cases hstep with
    | processing now h =>
      unfold Task.mark_processing at h
      split at h
      · cases h
      · rename_i hs
        cases h
        simp only [not_not] at hs
        simp only [hs] at ih
        simp_all
    | completed r now h =>
      unfold Task.mark_completed at h
      split at h
      · cases h
      · rename_i hs
        cases h
        simp only [not_not] at hs
        simp only [hs] at ih
        simp_all
    | failed e now h =>
      unfold Task.mark_failed at h
      split at h
      · cases h
      · cases h; simp
    | retry h =>
      unfold Task.prepare_retry at h
      split at h
      · cases h
      · cases h; simp

/-- Witness for C4's amended theorem at the reachable failed task
`exC5`. -/
theorem error_iff_failed_witness :
    Reachable exC5 ∧ (exC5.error ≠ none ↔ exC5.status = TaskStatus.failed) :=
  ⟨reachable_exC5, error_iff_failed exC5 reachable_exC5⟩

/-- Claim C7: every transition method is guarded and errors exactly on an
illegal source state: `mark_processing` unless the status is `pending`,
`mark_completed` and `mark_failed` unless it is `processing`, and
`prepare_retry` unless `retries < max_retries` (so at
`retries == max_retries` it raises).  In the source each guard is checked
before any assignment, which the embedding reflects: the error branch
returns no task, so a failed guard leaves every field unchanged. -/
theorem transition_guards (t : Task) (now : Nat)
    (r : Option (List (String × Json))) (e : String) :
    ((∃ m, Task.mark_processing t now = Except.error m) ↔
        t.status ≠ TaskStatus.pending) ∧
    ((∃ m, Task.mark_completed t r now = Except.error m) ↔
        t.status ≠ TaskStatus.processing) ∧
    ((∃ m, Task.mark_failed t e now = Except.error m) ↔
        t.status ≠ TaskStatus.processing) ∧
    ((∃ m, Task.prepare_retry t = Except.error m) ↔
        ¬ (t.retries < t.max_retries)) := by
  unfold Task.mark_processing Task.mark_completed Task.mark_failed
    Task.prepare_retry Task.can_retry
  refine ⟨?_, ?_, ?_, ?_⟩ <;> split <;> simp_all

/-- Claim C9: `enqueue` errors exactly when the effective priority (the
override if given, else the task's own) lies outside `[1, 10]`.  The
check precedes every write in the source, and the embedding's error
branch carries neither a store nor a task, so nothing is mutated: the
record is not written, no id is added to the pending set, and the task
(including its `priority` field, whose overwrite also sits after the
check) is untouched. -/
theorem enqueue_rejects_invalid_priority (st : Store) (task : Task)
    (queue_name : Option String) (priority : Option Int) (default_queue : String) :
    (∃ e, RedisBroker.enqueue st task queue_name priority default_queue =
        Except.error e) ↔
      ¬ (1 ≤ priority.getD task.priority ∧ priority.getD task.priority ≤ 10) := by
  unfold RedisBroker.enqueue
  split <;> simp_all
  all_goals (split <;> simp_all)

/-- Claim C10: when its guard passes, `prepare_retry` sets exactly
`status := pending`, `started_at := none`, `completed_at := none`,
`error := none` and `retries := retries + 1`, and leaves `id`, `name`,
`payload`, `priority`, `created_at`, `result` and `max_retries`
unchanged; in particular a set `result` survives. -/
theorem prepare_retry_frame (t : Task) (h : t.retries < t.max_retries) :
    ∃ u, Task.prepare_retry t = Except.ok u ∧
      u.status = TaskStatus.pending ∧ u.started_at = none ∧
      u.completed_at = none ∧ u.error = none ∧ u.retries = t.retries + 1 ∧
      u.id = t.id ∧ u.name = t.name ∧ u.payload = t.payload ∧
      u.priority = t.priority ∧ u.created_at = t.created_at ∧
      u.result = t.result ∧ u.max_retries = t.max_retries := by
  unfold Task.prepare_retry Task.can_retry
  rw [if_neg (by simpa using h)]
  exact ⟨_, rfl, rfl, rfl, rfl, rfl, rfl, rfl, rfl, rfl, rfl, rfl, rfl, rfl⟩

/-- Witness for C10 at `exC2`, a completed task with a set `result`. -/
theorem prepare_retry_frame_witness :
    exC2.retries < exC2.max_retries ∧
    (∃ u, Task.prepare_retry exC2 = Except.ok u ∧
      u.status = TaskStatus.pending ∧ u.started_at = none ∧
      u.completed_at = none ∧ u.error = none ∧ u.retries = exC2.retries + 1 ∧
      u.id = exC2.id ∧ u.name = exC2.name ∧ u.payload = exC2.payload ∧
      u.priority = exC2.priority ∧ u.created_at = exC2.created_at ∧
      u.result = exC2.result ∧ u.max_retries = exC2.max_retries) :=
  ⟨by decide, prepare_retry_frame exC2 (by decide)⟩

/-- Claim C8: serialization round-trip — `from_json(to_json(T))`
reconstructs every reachable task exactly, all twelve fields included.
The stdlib string layer (`json.dumps`/`json.loads`,
`isoformat`/`fromisoformat`, `str(UUID)`/`UUID(str)`) consists of
lossless codecs modelled as such; the repository code under test is the
field-by-field `to_dict`/`from_dict` mapping with its truthiness gates,
defaults and re-validation. -/
theorem serialization_roundtrip (t : Task) (h : Reachable t) :
    Task.from_json (Task.to_json t) = Except.ok t := by
  obtain ⟨h1, h2, h3⟩ := reachable_priority_bounds t h
  obtain ⟨id, name, payload, status, priority, created_at, started_at,
    completed_at, result, error, retries, max_retries⟩ := t
  simp only at h1 h2 h3
  cases status <;> cases started_at <;> cases completed_at <;>
    cases result <;> cases error <;>
    simp [Task.from_json, Task.to_json, Task.to_dict, Task.from_dict, reqField,
      alGet, asStr, asNum, asObj, parseStatus, statusValue, parseOptDate,
      parseOptObj, parseOptStr, truthy, fromisoformat_isoformat,
      isoformat_ne_empty, Bind.bind, Except.bind, h1, h2, h3]

/-- Witness for C8 at the reachable task `exC5`, which populates every
optional field. -/
theorem serialization_roundtrip_witness :
    Reachable exC5 ∧ Task.from_json (Task.to_json exC5) = Except.ok exC5 :=
  ⟨reachable_exC5, serialization_roundtrip exC5 reachable_exC5⟩

/-- Claim C5: evaluation of `Worker._poll_queues` at the failing input.
The loop body of `_poll_queues` never reads `queues:paused` (no such read
occurs anywhere in src/src/worker): after `pause_queue("q1")` has put
"q1" into the paused set, a worker polling `["q1"]` still dequeues the
pending task from the paused queue, contradicting the spec and the pause
endpoint's own documentation ("Workers will stop picking up new tasks
from this queue until resumed"). -/
theorem paused_queue_still_polled :
    RedisBroker.enqueue Store.empty pTask (some ("q1")) none ("default") =
      Except.ok (c5st1, pTask) ∧
    pause_queue c5st1 ("q1") = Except.ok c5st2 ∧
    memb ("q1") c5st2.paused = true ∧
    (Worker.poll_queues c5st2 [("q1")] 7).2 = some pTaskProcessing ∧
    pTaskProcessing.id = pTask.id :=
  ⟨rfl, rfl, rfl, rfl, rfl⟩

/-- Claim C6, counterexample: the no-retry failure path calls
`update_task(task)` with no queue name, so the processing-to-failed SMOVE
targets the settings default queue, while `_move_to_dlq` targets the
first polled queue.  With polling list `["high"]` and default queue
"default", the id lands in `queue:high:dlq:failed` but not in
`queue:high:failed` (and stays stuck in `queue:high:processing`, because
the SMOVE on the default queue's sets is a no-op). -/
theorem dlq_failed_set_mismatch :
    Task.can_retry fTask = false ∧
    cfg6.queues = ["high"] ∧
    memb ("f1") ((Worker.handle_task_failure cfg6 st6 fTask).failedOf ("high")) =
      false ∧
    memb ("f1") ((Worker.handle_task_failure cfg6 st6 fTask).failedOf ("high:dlq")) =
      true ∧
    memb ("f1") ((Worker.handle_task_failure cfg6 st6 fTask).processingOf ("high")) =
      true :=
  ⟨rfl, rfl, rfl, rfl, rfl⟩

/-- Claim C6, amended: `update_task` is called without a queue name and
therefore moves the id within the settings default queue; the dlq copy
uses the first polled queue.  When the worker's first queue *is* the
default queue `Q` (and the failed task's id is in `queue:Q:processing`),
the claim's conclusion holds: after the failure path the id is a member
of both `queue:Q:failed` and `queue:Q:dlq:failed`. -/
theorem dlq_and_failed_same_queue (cfg : WorkerCfg) (st : Store) (task : Task)
    (hq : cfg.queues.headD cfg.default_queue = cfg.default_queue)
    (hst : task.status = TaskStatus.failed)
    (hcr : task.can_retry = false)
    (hmem : memb task.id (st.processingOf cfg.default_queue) = true) :
    memb task.id
        ((Worker.handle_task_failure cfg st task).failedOf cfg.default_queue) =
      true ∧
    memb task.id
        ((Worker.handle_task_failure cfg st task).failedOf
          (cfg.default_queue ++ (":dlq"))) = true := by
  have h4 : String.length (":dlq") = 4 := rfl
  have hne : cfg.default_queue ++ (":dlq") ≠ cfg.default_queue := by
    intro h
    have hlen := congrArg String.length h
    rw [String.length_append, h4] at hlen
    omega
  have hmem2 : memb task.id ((alGet st.processing cfg.default_queue).getD []) =
      true := hmem
  simp only [Worker.handle_task_failure, hcr, Bool.false_eq_true, if_false,
    RedisBroker.update_task, Option.getD_none, hst, Worker.move_to_dlq, hq,
    Store.setTask, Store.setProcessing, Store.setFailed, Store.processingOf,
    Store.failedOf, smove, hmem2, if_true]
  constructor
  · rw [alGet_alSet_ne _ _ _ _ hne, alGet_alSet_self, Option.getD_some]
    exact memb_sadd_self _ _
  · rw [alGet_alSet_self, Option.getD_some]
    exact memb_sadd_self _ _

@[simp] theorem tasks_setPending (st : Store) (q : String) (z : List (String × Int)) :
    (st.setPending q z).tasks = st.tasks := rfl

@[simp] theorem tasks_setProcessing (st : Store) (q : String) (s : List String) :
    (st.setProcessing q s).tasks = st.tasks := rfl

@[simp] theorem pending_setTask (st : Store) (k : String) (t : Task) :
    (st.setTask k t).pending = st.pending := rfl

@[simp] theorem pending_setProcessing (st : Store) (q : String) (s : List String) :
    (st.setProcessing q s).pending = st.pending := rfl

@[simp] theorem processing_setTask (st : Store) (k : String) (t : Task) :
    (st.setTask k t).processing = st.processing := rfl

@[simp] theorem processing_setPending (st : Store) (q : String) (z : List (String × Int)) :
    (st.setPending q z).processing = st.processing := rfl

@[simp] theorem tasks_setTask (st : Store) (k : String) (t : Task) :
    (st.setTask k t).tasks = alSet st.tasks k t := rfl

@[simp] theorem pendingOf_setPending (st : Store) (q : String) (z : List (String × Int)) :
    (st.setPending q z).pendingOf q = z := by
  simp [Store.setPending, Store.pendingOf, alGet_alSet_self]

@[simp] theorem pendingOf_setTask (st : Store) (k : String) (t : Task) (q : String) :
    (st.setTask k t).pendingOf q = st.pendingOf q := rfl

@[simp] theorem pendingOf_setProcessing (st : Store) (q1 q : String) (s : List String) :
    (st.setProcessing q1 s).pendingOf q = st.pendingOf q := rfl

/-- With a valid effective priority and no override, `enqueue` stores the
record and adds the id to the pending set with score `-priority`. -/
theorem enqueue_ok (st : Store) (t : Task) (q d : String)
    (h1 : 1 ≤ t.priority) (h2 : t.priority ≤ 10) :
    RedisBroker.enqueue st t (some q) none d =
      Except.ok ((st.setTask t.id t).setPending q
        (zUpsert (st.pendingOf q) t.id (-t.priority)), t) := by
  unfold RedisBroker.enqueue
  simp only [Option.getD_some, Option.getD_none]
  rw [if_neg (not_not_intro ⟨h1, h2⟩), pendingOf_setTask]

/-- Claim C1: priority ordering of a single queue.  Two pending tasks A
and B with `A.priority > B.priority`, enqueued through `enqueue` (in
either order) into the same queue before any dequeue, are dequeued
A first, then B: enqueue ZADDs each id with score `-priority` and dequeue
BZPOPMINs the lowest score. -/
theorem dequeue_priority_order (st0 : Store) (A B : Task) (q d : String)
    (nA nB : Nat) (st2 : Store)
    (hAstat : A.status = TaskStatus.pending)
    (hBstat : B.status = TaskStatus.pending)
    (hne : A.id ≠ B.id)
    (hBlo : 1 ≤ B.priority) (hAhi : A.priority ≤ 10)
    (hgt : B.priority < A.priority)
    (hempty : st0.pendingOf q = [])
    (horder :
      (∃ stA A1 B1,
        RedisBroker.enqueue st0 A (some q) none d = Except.ok (stA, A1) ∧
        RedisBroker.enqueue stA B (some q) none d = Except.ok (st2, B1)) ∨
      (∃ stB A1 B1,
        RedisBroker.enqueue st0 B (some q) none d = Except.ok (stB, B1) ∧
        RedisBroker.enqueue stB A (some q) none d = Except.ok (st2, A1))) :
    dequeuedId (RedisBroker.dequeue st2 q nA) = some A.id ∧
    dequeuedId (RedisBroker.dequeue (RedisBroker.dequeue st2 q nA).1 q nB) =
      some B.id := by
  have hA1 : 1 ≤ A.priority := by omega
  have hB10 : B.priority ≤ 10 := by omega
  have hlt : -A.priority < -B.priority := by omega
  have hnlt : ¬ (-B.priority < -A.priority) := by omega
  have hneq : ¬ ((-B.priority : Int) = -A.priority) := by omega
  have hne2 : B.id ≠ A.id := Ne.symm hne
  rcases horder with ⟨stA, A1, B1, h1, h2⟩ | ⟨stB, A1, B1, h1, h2⟩
  · rw [enqueue_ok st0 A q d hA1 hAhi] at h1
    injection h1 with hp
    injection hp with h3 h4
    subst h3
    subst h4
    rw [enqueue_ok _ B q d hBlo hB10] at h2
    injection h2 with hp2
    injection hp2 with h5 h6
    subst h5
    subst h6
    constructor <;>
      simp [RedisBroker.dequeue, dequeuedId, hempty, zUpsert, alSet, hne, hne2,
        zpopmin, zminEntry, zremMember, hlt, hnlt, hneq, alGet_alSet_self,
        alGet_alSet_ne, Task.mark_processing, hAstat, hBstat]
  · rw [enqueue_ok st0 B q d hBlo hB10] at h1
    injection h1 with hp
    injection hp with h3 h4
    subst h3
    subst h4
    rw [enqueue_ok _ A q d hA1 hAhi] at h2
    injection h2 with hp2
    injection hp2 with h5 h6
    subst h5
    subst h6
    constructor <;>
      simp [RedisBroker.dequeue, dequeuedId, hempty, zUpsert, alSet, hne, hne2,
        zpopmin, zminEntry, zremMember, hlt, hnlt, hneq, alGet_alSet_self,
        alGet_alSet_ne, Task.mark_processing, hAstat, hBstat]

/-- Witness for C1: priorities 7 and 3 on an empty queue, both orders
collapsing to the first (A then B) enqueue order. -/
theorem dequeue_priority_order_witness :
    dequeuedId (RedisBroker.dequeue
        ((Store.empty.setTask ("a") exA).setPending ("q1")
            (zUpsert (Store.empty.pendingOf ("q1")) ("a") (-7))
          |>.setTask ("b") exB
          |>.setPending ("q1")
            (zUpsert [("a", -7)] ("b") (-3))) ("q1") 5) = some exA.id ∧
    dequeuedId (RedisBroker.dequeue
        (RedisBroker.dequeue
          ((Store.empty.setTask ("a") exA).setPending ("q1")
              (zUpsert (Store.empty.pendingOf ("q1")) ("a") (-7))
            |>.setTask ("b") exB
            |>.setPending ("q1")
              (zUpsert [("a", -7)] ("b") (-3))) ("q1") 5).1 ("q1") 6) =
      some exB.id :=
  dequeue_priority_order Store.empty exA exB ("q1") ("default") 5 6 _
    rfl rfl (by decide) (by decide) (by decide) (by decide) rfl
    (Or.inl ⟨_, _, _, rfl, rfl⟩)

@[simp] theorem processingOf_setPending (st : Store) (q1 q : String)
    (z : List (String × Int)) :
    (st.setPending q1 z).processingOf q = st.processingOf q := rfl

@[simp] theorem processingOf_setTask (st : Store) (k : String) (t : Task) (q : String) :
    (st.setTask k t).processingOf q = st.processingOf q := rfl

@[simp] theorem processingOf_setProcessing_self (st : Store) (q : String)
    (s : List String) :
    (st.setProcessing q s).processingOf q = s := by
  simp [Store.setProcessing, Store.processingOf, alGet_alSet_self]

theorem alGet_mem {α : Type} (l : List (String × α)) (k : String) (v : α)
    (h : alGet l k = some v) : (k, v) ∈ l := by
  induction l with
  | nil => cases h
  | cons p rest ih =>
    obtain ⟨k1, v1⟩ := p
    simp only [alGet] at h
    split at h
    · rename_i heq
      injection h with h2
      subst heq
      subst h2
      exact List.mem_cons_self _ _
    · exact List.mem_cons_of_mem _ (ih h)

theorem wf_alSet :
    ∀ (l : List (String × Task)) (k : String) (t : Task),
      (∀ p ∈ l, (p.2).id = p.1) → t.id = k →
      ∀ p ∈ alSet l k t, (p.2).id = p.1 := by
  intro l
  induction l with
  | nil =>
    intro k t _ ht p hp
    simp only [alSet, List.mem_singleton] at hp
    subst hp
    exact ht
  | cons e rest ih =>
    intro k t hwf ht p hp
    obtain ⟨k1, v1⟩ := e
    simp only [alSet] at hp
    split at hp
    · rcases List.mem_cons.mp hp with rfl | hm
      · exact ht
      · exact hwf p (List.mem_cons_of_mem _ hm)
    · rcases List.mem_cons.mp hp with rfl | hm
      · exact hwf _ (List.mem_cons_self _ _)
      · exact ih k t (fun x hx => hwf x (List.mem_cons_of_mem _ hx)) ht p hm

/-- One recovery iteration keeps the store's task records keyed by their
own ids (every write is at `task.id`). -/
theorem recoverStep_wf (st : Store) (q : String) (w : WorkerStateM)
    (hwf : ∀ p ∈ st.tasks, (p.2).id = p.1) :
    ∀ p ∈ (recoverStep st q w).1.tasks, (p.2).id = p.1 := by
  unfold recoverStep
  split
  · exact hwf
  · split
    · exact hwf
    · split
      · simp only [tasks_setPending, tasks_setProcessing, tasks_setTask]
        exact wf_alSet _ _ _ hwf rfl
      · exact hwf

/-- A later recovery iteration cannot undo an already recovered member:
it only rewrites records, pending scores and processing membership of the
(different) id held by its own stale worker, or skips when the task is no
longer processing. -/
theorem recoverStep_preserves (st : Store) (q m : String) (w : WorkerStateM)
    (t : Task)
    (hwf : ∀ p ∈ st.tasks, (p.2).id = p.1)
    (hdone : recoveredAt st q m t) :
    recoveredAt (recoverStep st q w).1 q m t := by
  obtain ⟨hget, hstat, hstart, hsc, hmem⟩ := hdone
  cases hc : w.current_task with
  | none => exact ⟨by simp [recoverStep, hc, hget], hstat, hstart,
      by simp [recoverStep, hc]; exact hsc, by simp [recoverStep, hc]; exact hmem⟩
  | some tid2 =>
    cases hg2 : alGet st.tasks tid2 with
    | none => exact ⟨by simp [recoverStep, hc, hg2, hget], hstat, hstart,
        by simp [recoverStep, hc, hg2]; exact hsc,
        by simp [recoverStep, hc, hg2]; exact hmem⟩
    | some task2 =>
      by_cases hp2 : task2.status = TaskStatus.processing
      · have htid2 : task2.id = tid2 := hwf _ (alGet_mem _ _ _ hg2)
        have hne : task2.id ≠ m := by
          rw [htid2]
          intro h
          subst h
          rw [hget] at hg2
          injection hg2 with h2
          subst h2
          rw [hstat] at hp2
          cases hp2
        refine ⟨?_, hstat, hstart, ?_, ?_⟩
        · simp only [recoverStep, hc, hg2, hp2, if_true, tasks_setPending,
            tasks_setProcessing, tasks_setTask]
          rw [alGet_alSet_ne _ _ _ _ hne]
          exact hget
        · simp only [recoverStep, hc, hg2, hp2, if_true, pendingOf_setPending,
            pendingOf_setProcessing, pendingOf_setTask, zscore, zUpsert]
          rw [alGet_alSet_ne _ _ _ _ hne]
          exact hsc
        · simp only [recoverStep, hc, hg2, hp2, if_true, processingOf_setPending,
            processingOf_setProcessing_self, processingOf_setTask]
          rw [memb_srem_ne _ _ _ (fun h => hne h.symm)]
          exact hmem
      · exact ⟨by simp [recoverStep, hc, hg2, hp2, hget], hstat, hstart,
          by simp [recoverStep, hc, hg2, hp2]; exact hsc,
          by simp [recoverStep, hc, hg2, hp2]; exact hmem⟩

/-- The recovery iteration for a stale worker holding a processing task
leaves that task recovered: record pending with `started_at` cleared, id
re-scored into pending, id gone from processing. -/
theorem recoverStep_establishes (st : Store) (q : String) (w : WorkerStateM)
    (tid : String) (task : Task)
    (hwf : ∀ p ∈ st.tasks, (p.2).id = p.1)
    (hcur : w.current_task = some tid)
    (hget : alGet st.tasks tid = some task)
    (hproc : task.status = TaskStatus.processing) :
    recoveredAt (recoverStep st q w).1 q tid
      { task with status := TaskStatus.pending, started_at := none } := by
  have htid : task.id = tid := hwf _ (alGet_mem _ _ _ hget)
  refine ⟨?_, rfl, rfl, ?_, ?_⟩
  · simp only [recoverStep, hcur, hget, hproc, if_true, tasks_setPending,
      tasks_setProcessing, tasks_setTask]
    rw [htid, alGet_alSet_self]
  · simp only [recoverStep, hcur, hget, hproc, if_true, pendingOf_setPending,
      pendingOf_setProcessing, pendingOf_setTask, zscore, zUpsert]
    rw [htid, alGet_alSet_self]
  · simp only [recoverStep, hcur, hget, hproc, if_true, processingOf_setPending,
      processingOf_setProcessing_self, processingOf_setTask]
    rw [htid]
    exact memb_srem_self _ _

/-- Iterations for other workers either leave our processing record in
place or have already recovered it. -/
theorem recoverStep_pre (st : Store) (q : String) (w1 : WorkerStateM)
    (tid : String) (task : Task)
    (hwf : ∀ p ∈ st.tasks, (p.2).id = p.1)
    (hget : alGet st.tasks tid = some task)
    (hproc : task.status = TaskStatus.processing) :
    alGet (recoverStep st q w1).1.tasks tid = some task ∨
      recoveredAt (recoverStep st q w1).1 q tid
        { task with status := TaskStatus.pending, started_at := none } := by
  cases hc : w1.current_task with
  | none => left; simpa [recoverStep, hc] using hget
  | some tid2 =>
    cases hg2 : alGet st.tasks tid2 with
    | none => left; simpa [recoverStep, hc, hg2] using hget
    | some task2 =>
      by_cases hp2 : task2.status = TaskStatus.processing
      · by_cases heq : tid2 = tid
        · subst heq
          rw [hget] at hg2
          injection hg2 with h2
          subst h2
          right
          exact recoverStep_establishes st q w1 tid2 task hwf hc hget hproc
        · left
          have htid2 : task2.id = tid2 := hwf _ (alGet_mem _ _ _ hg2)
          have hne3 : task2.id ≠ tid := by rw [htid2]; exact heq
          simp only [recoverStep, hc, hg2, hp2, if_true, tasks_setPending,
            tasks_setProcessing, tasks_setTask]

          rw [alGet_alSet_ne _ _ _ _ hne3]
          exact hget
      · left; simpa [recoverStep, hc, hg2, hp2] using hget

/-- A recovered member stays recovered through the rest of the loop. -/
theorem recoverLoop_preserves (q m : String) (t : Task) :
    ∀ (ws : List WorkerStateM) (st : Store),
      (∀ p ∈ st.tasks, (p.2).id = p.1) → recoveredAt st q m t →
      recoveredAt (recoverLoop st q ws).1 q m t := by
  intro ws
  induction ws with
  | nil => intro st _ h; exact h
  | cons w rest ih =>
    intro st hwf hdone
    simp only [recoverLoop]
    exact ih _ (recoverStep_wf st q w hwf)
      (recoverStep_preserves st q m w t hwf hdone)

/-- Main loop lemma: once the loop reaches the stale worker holding our
processing task (and afterwards), the task is recovered. -/
theorem recoverLoop_main (q : String) (w : WorkerStateM) (tid : String)
    (task : Task)
    (hcur : w.current_task = some tid)
    (hproc : task.status = TaskStatus.processing) :
    ∀ (ws : List WorkerStateM) (st : Store),
      (∀ p ∈ st.tasks, (p.2).id = p.1) → w ∈ ws →
      (alGet st.tasks tid = some task ∨
        recoveredAt st q tid
          { task with status := TaskStatus.pending, started_at := none }) →
      recoveredAt (recoverLoop st q ws).1 q tid
        { task with status := TaskStatus.pending, started_at := none } := by
  intro ws
  induction ws with
  | nil => intro st _ hmem _; cases hmem
  | cons w1 rest ih =>
    intro st hwf hmem hpre
    simp only [recoverLoop]
    rcases List.mem_cons.mp hmem with heq | hmem2
    · rcases hpre with hget | hdone
      · exact recoverLoop_preserves q tid _ rest _
          (recoverStep_wf st q w1 hwf)
          (recoverStep_establishes st q w1 tid task hwf (heq ▸ hcur) hget hproc)
      · exact recoverLoop_preserves q tid _ rest _
          (recoverStep_wf st q w1 hwf)
          (recoverStep_preserves st q tid w1 _ hwf hdone)
    · refine ih ((recoverStep st q w1).1) (recoverStep_wf st q w1 hwf) hmem2 ?_
      rcases hpre with hget | hdone
      · exact recoverStep_pre st q w1 tid task hwf hget hproc
      · exact Or.inr (recoverStep_preserves st q tid w1 _ hwf hdone)

/-- Claim C2: after `recover_orphaned_tasks(queue, timeout)`, for every
stale worker (heartbeat at least `timeout` old) whose `current_task`
names a task whose stored status is `processing`, that task's record is
pending with `started_at` cleared, its id is in the queue's pending
sorted set with score `-priority`, and it is no longer in the queue's
processing set.  The well-formedness hypothesis states that every stored
record carries the id it is keyed under, which every writer in the
codebase guarantees (all writes go to `task:{task.id}`). -/
theorem recover_orphaned_tasks_spec (st : Store) (q : String)
    (now timeout : Int) (w : WorkerStateM) (tid : String) (task : Task)
    (hwf : ∀ p ∈ st.tasks, (p.2).id = p.1)
    (hw : w ∈ get_stale_workers st now timeout)
    (hcur : w.current_task = some tid)
    (hget : alGet st.tasks tid = some task)
    (hproc : task.status = TaskStatus.processing) :
    recoveredAt (recover_orphaned_tasks st q now timeout).1 q tid
      { task with status := TaskStatus.pending, started_at := none } := by
  unfold recover_orphaned_tasks
  exact recoverLoop_main q w tid task hcur hproc _ st hwf hw (Or.inl hget)

/-- Witness for C2: one stale worker (heartbeat 100 seconds old against a
60 second timeout) holding the processing task "t1" on queue "default". -/
theorem recover_orphaned_tasks_spec_witness :
    ((∀ p ∈ stOrphan.tasks, (p.2).id = p.1) ∧
      staleW ∈ get_stale_workers stOrphan 100 60 ∧
      staleW.current_task = some ("t1") ∧
      alGet stOrphan.tasks ("t1") = some oTask ∧
      oTask.status = TaskStatus.processing) ∧
    recoveredAt (recover_orphaned_tasks stOrphan ("default") 100 60).1
      ("default") ("t1") oTaskRecovered :=
  ⟨⟨by decide, by decide, rfl, rfl, rfl⟩,
    recover_orphaned_tasks_spec stOrphan ("default") 100 60 staleW ("t1") oTask
      (by decide) (by decide) rfl rfl rfl⟩

/-- Witness for C6's amended theorem: polling list `["default"]` with
default queue "default". -/
theorem dlq_and_failed_same_queue_witness :
    (cfgD.queues.headD cfgD.default_queue = cfgD.default_queue ∧
      fTask.status = TaskStatus.failed ∧ fTask.can_retry = false ∧
      memb fTask.id (st6d.processingOf cfgD.default_queue) = true) ∧
    memb fTask.id
        ((Worker.handle_task_failure cfgD st6d fTask).failedOf cfgD.default_queue) =
      true ∧
    memb fTask.id
        ((Worker.handle_task_failure cfgD st6d fTask).failedOf
          (cfgD.default_queue ++ (":dlq"))) = true :=
  ⟨⟨rfl, rfl, rfl, rfl⟩,
    dlq_and_failed_same_queue cfgD st6d fTask rfl rfl rfl rfl⟩

end DTQ
